import Mathlib

/-!
Shallow embedding of the in-browser audio capture / re-encoding routine of
`src/beyond-words-web/beyond-words-web/src/pages/page6.jsx`.

Audio samples (JS `Float32Array` entries, exact at every value the claims
touch) are modelled as rationals; byte buffers (`ArrayBuffer`/`Blob`) as
lists of naturals below 256; the platform decoder (`decodeAudioData`) as an
abstract function returning `Option AudioBuffer`.
-/

namespace BeyondWords

/-- A decoded audio buffer (`AudioBuffer` of the Web Audio API): a sample
rate and the per-channel float sample arrays (`getChannelData i`). -/
structure AudioBuffer where
  sampleRate : ℕ
  channels : List (List ℚ)
deriving DecidableEq

/-- `audioBuffer.numberOfChannels`. -/
def AudioBuffer.numberOfChannels (ab : AudioBuffer) : ℕ :=
  ab.channels.length

/-- `audioBuffer.getChannelData(i)`. -/
def AudioBuffer.getChannelData (ab : AudioBuffer) (i : ℕ) : List ℚ :=
  ab.channels.getD i []

/-- JS `Math.max(-1, Math.min(1, x))` — the clamp in the sample loop of
`audioBufferToWav` (page6.jsx line 139). -/
def clamp1 (q : ℚ) : ℚ := max (-1) (min 1 q)

/-- Truncation toward zero, the integer conversion JS `DataView.setInt16`
applies to its argument (ToIntegerOrInfinity). -/
def jsTrunc (q : ℚ) : ℤ := if q < 0 then ⌈q⌉ else ⌊q⌋

/-- The per-sample quantization of `audioBufferToWav` (page6.jsx lines
139-140): clamp to [-1,1], then scale by 0x8000 for negative samples and
0x7FFF for nonnegative ones, truncated to an integer by `setInt16`. -/
def quantize (q : ℚ) : ℤ :=
  let sample := clamp1 q
  if sample < 0 then jsTrunc (sample * 0x8000) else jsTrunc (sample * 0x7FFF)

/-- The mono-mixing step of `audioBufferToWav` (page6.jsx lines 96-108):
one channel is returned unchanged; otherwise channels 0 and 1 are averaged
sample-by-sample over the length of channel 0. -/
def downmixToMono (channels : List (List ℚ)) : List ℚ :=
  if channels.length == 1 then channels.getD 0 []
  else
    let left := channels.getD 0 []
    let right := channels.getD 1 []
    (List.range left.length).map fun i => (left.getD i 0 + right.getD i 0) / 2

/-- Little-endian bytes of `DataView.setUint16(off, v, true)`. -/
def u16le (v : ℕ) : List ℕ := [v % 256, v / 256 % 256]

/-- Little-endian bytes of `DataView.setUint32(off, v, true)`. -/
def u32le (v : ℕ) : List ℕ :=
  [v % 256, v / 256 % 256, v / 65536 % 256, v / 16777216 % 256]

/-- Little-endian bytes of `DataView.setInt16(off, v, true)`: the two's
complement low 16 bits of the integer. -/
def i16le (v : ℤ) : List ℕ := u16le (v % 65536).toNat

/-- The `writeString` helper of `audioBufferToWav` (page6.jsx lines
115-119): one byte per character, its char code. -/
def writeStringBytes (s : String) : List ℕ :=
  s.data.map (fun c => c.toNat)

/-- The container serialization of `audioBufferToWav` (page6.jsx lines
110-144) applied to already-quantized samples: the 44-byte RIFF/WAVE
header written field by field at increasing offsets, followed by the
little-endian int16 payload.  `numChannels`, `format` and `bitDepth` are
the constants of the source (1, PCM, 16). -/
def encodePcmContainer (samples : List ℤ) (sampleRate : ℕ) : List ℕ :=
  let numChannels := 1
  let format := 1
  let bitDepth := 16
  let dataLength := samples.length * (bitDepth / 8)
  writeStringBytes ("RIFF") ++
  u32le (36 + dataLength) ++
  writeStringBytes ("WAVE") ++
  writeStringBytes ("fmt ") ++
  u32le 16 ++
  u16le format ++
  u16le numChannels ++
  u32le sampleRate ++
  u32le (sampleRate * numChannels * (bitDepth / 8)) ++
  u16le (numChannels * (bitDepth / 8)) ++
  u16le bitDepth ++
  writeStringBytes ("data") ++
  u32le dataLength ++
  (samples.map i16le).flatten

/-- `audioBufferToWav` (page6.jsx lines 90-145): downmix to mono, quantize
each sample, serialize into the PCM container. -/
def audioBufferToWav (ab : AudioBuffer) : List ℕ :=
  encodePcmContainer ((downmixToMono ab.channels).map quantize) ab.sampleRate

/-- Substring test on character lists (JS `String.prototype.includes`). -/
def hasSubstr (hay pat : List Char) : Bool :=
  match hay with
  | [] => pat.isEmpty
  | _ :: t => pat.isPrefixOf hay || hasSubstr t pat

/-- JS `mimeType.includes(pat)`. -/
def jsIncludes (s pat : String) : Bool := hasSubstr s.data pat.data

/-- The fallback format list tried when `audio/wav` is unsupported
(page6.jsx lines 26-32). -/
def fallbackFormats : List String :=
  ["audio/webm;codecs=pcm", "audio/webm;codecs=opus", "audio/webm",
   "audio/ogg;codecs=opus", "audio/mp4"]

/-- The full ordered candidate list: uncompressed PCM (`audio/wav`) first,
then the fallbacks. -/
def captureCandidates : List String := "audio/wav" :: fallbackFormats

/-- The capture-format resolution of `startRecording` (page6.jsx lines
20-36): `audio/wav` if supported, else the first supported fallback, else
the default `audio/webm`. -/
def selectCaptureFormat (isTypeSupported : String → Bool) : String :=
  if isTypeSupported ("audio/wav") then ("audio/wav")
  else (fallbackFormats.find? isTypeSupported).getD ("audio/webm")

/-- Result of the `onstop` handler: the bytes handed to `setAudioData`
(and from there to the upload), and whether the conversion-failure warning
(`console.error("Conversion failed")`, page6.jsx line 57) fired. -/
structure ReencodeResult where
  output : List ℕ
  warned : Bool
deriving DecidableEq

/-- The re-encoding decision of `mediaRecorder.onstop` (page6.jsx lines
45-67): the captured blob is converted through `convertToWav` only when
the mime type contains `webm` or `ogg`; a decode failure falls back to the
original blob with a warning; every other mime type keeps the blob
unchanged. `decode` abstracts `audioContext.decodeAudioData`. -/
def reencodeIfNeeded (decode : List ℕ → Option AudioBuffer)
    (capturedBuffer : List ℕ) (mimeType : String) : ReencodeResult :=
  if jsIncludes mimeType ("webm") || jsIncludes mimeType ("ogg") then
    match decode capturedBuffer with
    | some ab => ⟨audioBufferToWav ab, false⟩
    | none => ⟨capturedBuffer, true⟩
  else ⟨capturedBuffer, false⟩

/-- Little-endian read-back of two bytes. -/
def readU16le (bs : List ℕ) (off : ℕ) : ℕ :=
  bs.getD off 0 + 256 * bs.getD (off + 1) 0

/-- Little-endian read-back of four bytes. -/
def readU32le (bs : List ℕ) (off : ℕ) : ℕ :=
  bs.getD off 0 + 256 * bs.getD (off + 1) 0 +
  65536 * bs.getD (off + 2) 0 + 16777216 * bs.getD (off + 3) 0

/-! ### Helper lemmas -/

lemma u16le_length (v : ℕ) : (u16le v).length = 2 := rfl

lemma u32le_length (v : ℕ) : (u32le v).length = 4 := rfl

lemma riffBytes : writeStringBytes ("RIFF") = [82, 73, 70, 70] := rfl

lemma flatten_map_i16le_length (l : List ℤ) :
    (l.map i16le).flatten.length = 2 * l.length := by
  induction l with
  | nil => simp
  | cons a t ih => simp [i16le, u16le, ih]; ring

lemma encodePcmContainer_length (samples : List ℤ) (sampleRate : ℕ) :
    (encodePcmContainer samples sampleRate).length = 44 + 2 * samples.length := by
  simp only [encodePcmContainer, List.length_append, writeStringBytes, u32le, u16le,
    flatten_map_i16le_length, List.length_map, List.length_cons, List.length_nil]

lemma getD_append_skip (pre l : List ℕ) (k : ℕ) :
    (pre ++ l).getD (pre.length + k) 0 = l.getD k 0 := by
  induction pre with
  | nil => simp
  | cons a t ih => simpa [Nat.succ_add] using ih

lemma readU32le_at (pre rest : List ℕ) (v : ℕ) :
    readU32le (pre ++ (u32le v ++ rest)) pre.length = v % 4294967296 := by
  have h0 : (pre ++ (u32le v ++ rest)).getD (pre.length + 0) 0 = v % 256 := by
    rw [getD_append_skip]; simp [u32le]
  have h1 : (pre ++ (u32le v ++ rest)).getD (pre.length + 1) 0 = v / 256 % 256 := by
    rw [getD_append_skip]; simp [u32le]
  have h2 : (pre ++ (u32le v ++ rest)).getD (pre.length + 2) 0 = v / 65536 % 256 := by
    rw [getD_append_skip]; simp [u32le]
  have h3 : (pre ++ (u32le v ++ rest)).getD (pre.length + 3) 0 = v / 16777216 % 256 := by
    rw [getD_append_skip]; simp [u32le]
  simp only [readU32le]
  rw [show pre.length = pre.length + 0 from rfl] at h0 ⊢
  rw [h1, h2, h3] at *
  rw [h0]
  omega

lemma readU16le_at (pre rest : List ℕ) (v : ℕ) :
    readU16le (pre ++ (u16le v ++ rest)) pre.length = v % 65536 := by
  have h0 : (pre ++ (u16le v ++ rest)).getD (pre.length + 0) 0 = v % 256 := by
    rw [getD_append_skip]; simp [u16le]
  have h1 : (pre ++ (u16le v ++ rest)).getD (pre.length + 1) 0 = v / 256 % 256 := by
    rw [getD_append_skip]; simp [u16le]
  simp only [readU16le]
  rw [show pre.length = pre.length + 0 from rfl] at h0 ⊢
  rw [h1] at *
  rw [h0]
  omega

lemma enc_field_riffSize (samples : List ℤ) (sr : ℕ) :
    readU32le (encodePcmContainer samples sr) 4 =
      (36 + samples.length * 2) % 4294967296 := by
  have hpre : (writeStringBytes ("RIFF")).length = 4 := rfl
  rw [show encodePcmContainer samples sr = writeStringBytes ("RIFF") ++
    (u32le (36 + samples.length * 2) ++ (writeStringBytes ("WAVE") ++
    writeStringBytes ("fmt ") ++ u32le 16 ++ u16le 1 ++ u16le 1 ++ u32le sr ++
    u32le (sr * 2) ++ u16le 2 ++ u16le 16 ++ writeStringBytes ("data") ++
    u32le (samples.length * 2) ++ (samples.map i16le).flatten)) from by
      simp [encodePcmContainer, List.append_assoc]]
  rw [← hpre, readU32le_at]

lemma enc_field_sampleRate (samples : List ℤ) (sr : ℕ) :
    readU32le (encodePcmContainer samples sr) 24 = sr % 4294967296 := by
  have hpre : (writeStringBytes ("RIFF") ++ u32le (36 + samples.length * 2) ++
      writeStringBytes ("WAVE") ++ writeStringBytes ("fmt ") ++ u32le 16 ++ u16le 1 ++
      u16le 1).length = 24 := by
    simp [writeStringBytes, u32le, u16le, String.data]
  rw [show encodePcmContainer samples sr = (writeStringBytes ("RIFF") ++
    u32le (36 + samples.length * 2) ++ writeStringBytes ("WAVE") ++
    writeStringBytes ("fmt ") ++ u32le 16 ++ u16le 1 ++ u16le 1) ++
    (u32le sr ++ (u32le (sr * 2) ++ u16le 2 ++ u16le 16 ++ writeStringBytes ("data") ++
    u32le (samples.length * 2) ++ (samples.map i16le).flatten)) from by
      simp [encodePcmContainer, List.append_assoc]]
  rw [← hpre, readU32le_at]

lemma enc_field_byteRate (samples : List ℤ) (sr : ℕ) :
    readU32le (encodePcmContainer samples sr) 28 = (sr * 2) % 4294967296 := by
  have hpre : (writeStringBytes ("RIFF") ++ u32le (36 + samples.length * 2) ++
      writeStringBytes ("WAVE") ++ writeStringBytes ("fmt ") ++ u32le 16 ++ u16le 1 ++
      u16le 1 ++ u32le sr).length = 28 := by
    simp [writeStringBytes, u32le, u16le, String.data]
  rw [show encodePcmContainer samples sr = (writeStringBytes ("RIFF") ++
    u32le (36 + samples.length * 2) ++ writeStringBytes ("WAVE") ++
    writeStringBytes ("fmt ") ++ u32le 16 ++ u16le 1 ++ u16le 1 ++ u32le sr) ++
    (u32le (sr * 2) ++ (u16le 2 ++ u16le 16 ++ writeStringBytes ("data") ++
    u32le (samples.length * 2) ++ (samples.map i16le).flatten)) from by
      simp [encodePcmContainer, List.append_assoc]]
  rw [← hpre, readU32le_at]

lemma enc_field_blockAlign (samples : List ℤ) (sr : ℕ) :
    readU16le (encodePcmContainer samples sr) 32 = 2 := by
  have hpre : (writeStringBytes ("RIFF") ++ u32le (36 + samples.length * 2) ++
      writeStringBytes ("WAVE") ++ writeStringBytes ("fmt ") ++ u32le 16 ++ u16le 1 ++
      u16le 1 ++ u32le sr ++ u32le (sr * 2)).length = 32 := by
    simp [writeStringBytes, u32le, u16le, String.data]
  rw [show encodePcmContainer samples sr = (writeStringBytes ("RIFF") ++
    u32le (36 + samples.length * 2) ++ writeStringBytes ("WAVE") ++
    writeStringBytes ("fmt ") ++ u32le 16 ++ u16le 1 ++ u16le 1 ++ u32le sr ++
    u32le (sr * 2)) ++ (u16le 2 ++ (u16le 16 ++ writeStringBytes ("data") ++
    u32le (samples.length * 2) ++ (samples.map i16le).flatten)) from by
      simp [encodePcmContainer, List.append_assoc]]
  rw [← hpre, readU16le_at]

lemma enc_field_numChannels (samples : List ℤ) (sr : ℕ) :
    readU16le (encodePcmContainer samples sr) 22 = 1 := by
  have hpre : (writeStringBytes ("RIFF") ++ u32le (36 + samples.length * 2) ++
      writeStringBytes ("WAVE") ++ writeStringBytes ("fmt ") ++ u32le 16 ++
      u16le 1).length = 22 := by
    simp [writeStringBytes, u32le, u16le, String.data]
  rw [show encodePcmContainer samples sr = (writeStringBytes ("RIFF") ++
    u32le (36 + samples.length * 2) ++ writeStringBytes ("WAVE") ++
    writeStringBytes ("fmt ") ++ u32le 16 ++ u16le 1) ++
    (u16le 1 ++ (u32le sr ++ u32le (sr * 2) ++ u16le 2 ++ u16le 16 ++
    writeStringBytes ("data") ++ u32le (samples.length * 2) ++
    (samples.map i16le).flatten)) from by
      simp [encodePcmContainer, List.append_assoc]]
  rw [← hpre, readU16le_at]

lemma enc_field_bitDepth (samples : List ℤ) (sr : ℕ) :
    readU16le (encodePcmContainer samples sr) 34 = 16 := by
  have hpre : (writeStringBytes ("RIFF") ++ u32le (36 + samples.length * 2) ++
      writeStringBytes ("WAVE") ++ writeStringBytes ("fmt ") ++ u32le 16 ++ u16le 1 ++
      u16le 1 ++ u32le sr ++ u32le (sr * 2) ++ u16le 2).length = 34 := by
    simp [writeStringBytes, u32le, u16le, String.data]
  rw [show encodePcmContainer samples sr = (writeStringBytes ("RIFF") ++
    u32le (36 + samples.length * 2) ++ writeStringBytes ("WAVE") ++
    writeStringBytes ("fmt ") ++ u32le 16 ++ u16le 1 ++ u16le 1 ++ u32le sr ++
    u32le (sr * 2) ++ u16le 2) ++ (u16le 16 ++ (writeStringBytes ("data") ++
    u32le (samples.length * 2) ++ (samples.map i16le).flatten)) from by
      simp [encodePcmContainer, List.append_assoc]]
  rw [← hpre, readU16le_at]

lemma enc_field_dataLen (samples : List ℤ) (sr : ℕ) :
    readU32le (encodePcmContainer samples sr) 40 =
      (samples.length * 2) % 4294967296 := by
  have hpre : (writeStringBytes ("RIFF") ++ u32le (36 + samples.length * 2) ++
      writeStringBytes ("WAVE") ++ writeStringBytes ("fmt ") ++ u32le 16 ++ u16le 1 ++
      u16le 1 ++ u32le sr ++ u32le (sr * 2) ++ u16le 2 ++ u16le 16 ++
      writeStringBytes ("data")).length = 40 := by
    simp [writeStringBytes, u32le, u16le, String.data]
  rw [show encodePcmContainer samples sr = (writeStringBytes ("RIFF") ++
    u32le (36 + samples.length * 2) ++ writeStringBytes ("WAVE") ++
    writeStringBytes ("fmt ") ++ u32le 16 ++ u16le 1 ++ u16le 1 ++ u32le sr ++
    u32le (sr * 2) ++ u16le 2 ++ u16le 16 ++ writeStringBytes ("data")) ++
    (u32le (samples.length * 2) ++ (samples.map i16le).flatten) from by
      simp [encodePcmContainer, List.append_assoc]]
  rw [← hpre, readU32le_at]

lemma encodePcmContainer_drop44 (samples : List ℤ) (sr : ℕ) :
    (encodePcmContainer samples sr).drop 44 = (samples.map i16le).flatten := by
  have hpre : (writeStringBytes ("RIFF") ++ u32le (36 + samples.length * 2) ++
      writeStringBytes ("WAVE") ++ writeStringBytes ("fmt ") ++ u32le 16 ++ u16le 1 ++
      u16le 1 ++ u32le sr ++ u32le (sr * 2) ++ u16le 2 ++ u16le 16 ++
      writeStringBytes ("data") ++ u32le (samples.length * 2)).length = 44 := by
    simp [writeStringBytes, u32le, u16le, String.data]
  rw [show encodePcmContainer samples sr = (writeStringBytes ("RIFF") ++
    u32le (36 + samples.length * 2) ++ writeStringBytes ("WAVE") ++
    writeStringBytes ("fmt ") ++ u32le 16 ++ u16le 1 ++ u16le 1 ++ u32le sr ++
    u32le (sr * 2) ++ u16le 2 ++ u16le 16 ++ writeStringBytes ("data") ++
    u32le (samples.length * 2)) ++ (samples.map i16le).flatten from by
      simp [encodePcmContainer, List.append_assoc]]
  rw [← hpre, List.drop_left]

lemma quantize_zero : quantize 0 = 0 := by
  norm_num [quantize, clamp1, jsTrunc]

lemma downmix_single (c : List ℚ) : downmixToMono [c] = c := by
  simp [downmixToMono]

lemma flatten_replicate_pair (n : ℕ) :
    (List.replicate n ([0, 0] : List ℕ)).flatten = List.replicate (2 * n) 0 := by
  induction n with
  | zero => simp
  | succ m ih => simp [List.replicate_succ, ih, Nat.mul_succ]

/-! ### Claim theorems -/

/-- C1 counterexample: the compressed format tag `audio/mp4` is NOT decoded
and re-encoded by the `onstop` path — the captured buffer `[1, 2, 3]` is
returned unchanged (with a decoder that would succeed), and it differs from
the re-encoding pipeline's output on the decoded buffer. -/
theorem reencode_mp4_unconverted :
    reencodeIfNeeded (fun _ => some ⟨8000, [[0]]⟩) [1, 2, 3] ("audio/mp4") =
      ⟨[1, 2, 3], false⟩ ∧
    ([1, 2, 3] : List ℕ) ≠
      encodePcmContainer
        ((downmixToMono (⟨8000, [[0]]⟩ : AudioBuffer).channels).map quantize)
        (⟨8000, [[0]]⟩ : AudioBuffer).sampleRate := by
  refine ⟨by decide, fun h => ?_⟩
  have hl := congrArg List.length h
  rw [encodePcmContainer_length] at hl
  simp [downmix_single] at hl

/-- C1 (amended): `reencodeIfNeeded` leaves the captured buffer unchanged
exactly when the format tag contains neither `webm` nor `ogg` (this covers
the uncompressed `audio/wav` but also the compressed `audio/mp4`); when the
tag contains `webm` or `ogg` and decoding succeeds, it applies
`downmixToMono`, `quantize` and `encodePcmContainer` in sequence to the
decoded buffer. -/
theorem reencodeIfNeeded_gate :
    (∀ (decode : List ℕ → Option AudioBuffer) (buf : List ℕ) (mime : String),
      jsIncludes mime ("webm") = false → jsIncludes mime ("ogg") = false →
      reencodeIfNeeded decode buf mime = ⟨buf, false⟩) ∧
    (∀ (decode : List ℕ → Option AudioBuffer) (buf : List ℕ) (mime : String)
      (ab : AudioBuffer),
      (jsIncludes mime ("webm") || jsIncludes mime ("ogg")) = true →
      decode buf = some ab →
      reencodeIfNeeded decode buf mime =
        ⟨encodePcmContainer ((downmixToMono ab.channels).map quantize) ab.sampleRate,
          false⟩) := by
  constructor
  · intro decode buf mime h1 h2
    simp [reencodeIfNeeded, h1, h2]
  · intro decode buf mime ab h hd
    simp [reencodeIfNeeded, h, hd, audioBufferToWav]

/-- Witness for the amended C1 at concrete inputs: `audio/wav` passes
through unchanged, `audio/webm` with a succeeding decoder yields the
pipeline output. -/
theorem reencodeIfNeeded_gate_witness :
    reencodeIfNeeded (fun _ => none) [5] ("audio/wav") = ⟨[5], false⟩ ∧
    reencodeIfNeeded (fun _ => some ⟨8000, [[0]]⟩) [5] ("audio/webm") =
      ⟨encodePcmContainer ((downmixToMono [[0]]).map quantize) 8000, false⟩ :=
  ⟨reencodeIfNeeded_gate.1 (fun _ => none) [5] ("audio/wav") rfl rfl,
   reencodeIfNeeded_gate.2 (fun _ => some ⟨8000, [[0]]⟩) [5] ("audio/webm")
     ⟨8000, [[0]]⟩ rfl rfl⟩

/-- C2: for a format tag that is decoded (contains `webm` or `ogg`), a
decode failure makes `reencodeIfNeeded` return the originally captured
bytes unchanged — so the upload proceeds with them — and the
conversion-failure warning fires. -/
theorem reencode_decode_failure_fallback
    (decode : List ℕ → Option AudioBuffer) (buf : List ℕ) (mime : String)
    (h : (jsIncludes mime ("webm") || jsIncludes mime ("ogg")) = true)
    (hd : decode buf = none) :
    reencodeIfNeeded decode buf mime = ⟨buf, true⟩ := by
  simp [reencodeIfNeeded, h, hd]

/-- Witness for C2: a failing decoder on an `audio/webm` capture. -/
theorem reencode_decode_failure_fallback_witness :
    (jsIncludes ("audio/webm") ("webm") || jsIncludes ("audio/webm") ("ogg")) = true ∧
    (fun _ : List ℕ => (none : Option AudioBuffer)) [7, 8] = none ∧
    reencodeIfNeeded (fun _ => none) [7, 8] ("audio/webm") = ⟨[7, 8], true⟩ :=
  ⟨rfl, rfl,
   reencode_decode_failure_fallback (fun _ => none) [7, 8] ("audio/webm") rfl rfl⟩

/-- C3: `quantize` maps the boundary and zero inputs exactly:
1.0 to 32767, -1.0 to -32768 and 0.0 to 0. -/
theorem quantize_boundary_values :
    quantize 1 = 32767 ∧ quantize (-1) = -32768 ∧ quantize 0 = 0 := by
  refine ⟨?_, ?_, quantize_zero⟩
  · norm_num [quantize, clamp1, jsTrunc]
  · norm_num [quantize, clamp1, jsTrunc]
    rw [show ((-32768 : ℚ)) = ((-32768 : ℤ) : ℚ) by norm_num, Int.ceil_intCast]

/-- C4: `quantize` clamps before scaling: 1.5 quantizes like 1.0, -2.0
like -1.0, and in general `quantize x = quantize (max (-1) (min 1 x))`. -/
theorem quantize_clamps_before_scaling :
    quantize (3 / 2) = quantize 1 ∧ quantize (-2) = quantize (-1) ∧
    ∀ q : ℚ, quantize q = quantize (max (-1) (min 1 q)) := by
  refine ⟨by norm_num [quantize, clamp1, jsTrunc],
    by norm_num [quantize, clamp1, jsTrunc], fun q => ?_⟩
  unfold quantize clamp1
  simp [max_assoc, min_assoc]

/-- C5: `downmixToMono` returns a single channel unchanged, and for an
equal-length stereo pair returns an array of the same length whose entry at
each index below the length is the arithmetic mean of the two channels
there. -/
theorem downmixToMono_stereo_mean :
    (∀ c : List ℚ, downmixToMono [c] = c) ∧
    (∀ c0 c1 : List ℚ, c1.length = c0.length →
      (downmixToMono [c0, c1]).length = c0.length ∧
      ∀ i, i < c0.length →
        (downmixToMono [c0, c1]).getD i 0 = (c0.getD i 0 + c1.getD i 0) / 2) := by
  refine ⟨downmix_single, fun c0 c1 h => ⟨by simp [downmixToMono], fun i hi => ?_⟩⟩
  simp [downmixToMono, List.getElem?_range hi]

/-- Witness for C5: a mono channel passes through; averaging `[1, 0]` with
`[0, 1]` gives 1/2 at index 0. -/
theorem downmixToMono_stereo_mean_witness :
    downmixToMono [[(5 : ℚ)]] = [(5 : ℚ)] ∧
    ([(0 : ℚ), 1] : List ℚ).length = ([(1 : ℚ), 0] : List ℚ).length ∧
    (downmixToMono [[(1 : ℚ), 0], [(0 : ℚ), 1]]).getD 0 0 = 1 / 2 := by
  refine ⟨downmixToMono_stereo_mean.1 [(5 : ℚ)], rfl, ?_⟩
  rw [(downmixToMono_stereo_mean.2 [1, 0] [0, 1] rfl).2 0 (by norm_num)]
  norm_num

/-- C6: for 16-bit mono, `encodePcmContainer` output has total length
44 + 2·N, and the little-endian uint32 at offset 4 equals the total length
minus 8 (whenever that value fits a uint32, which JS `setUint32` wraps). -/
theorem encodePcm_length_and_sizeField (samples : List ℤ) (sampleRate : ℕ)
    (h : 36 + 2 * samples.length < 4294967296) :
    (encodePcmContainer samples sampleRate).length = 44 + 2 * samples.length ∧
    readU32le (encodePcmContainer samples sampleRate) 4 =
      (encodePcmContainer samples sampleRate).length - 8 := by
  refine ⟨encodePcmContainer_length samples sampleRate, ?_⟩
  rw [enc_field_riffSize, encodePcmContainer_length]
  omega

/-- Witness for C6 on two concrete samples at 8000 Hz. -/
theorem encodePcm_length_and_sizeField_witness :
    36 + 2 * ([1, -2] : List ℤ).length < 4294967296 ∧
    ((encodePcmContainer [1, -2] 8000).length = 44 + 2 * ([1, -2] : List ℤ).length ∧
      readU32le (encodePcmContainer [1, -2] 8000) 4 =
        (encodePcmContainer [1, -2] 8000).length - 8) :=
  ⟨by norm_num, encodePcm_length_and_sizeField [1, -2] 8000 (by norm_num)⟩

/-- C7: header invariants of `encodePcmContainer` (16-bit mono, so
channels = 1 and bitDepth = 16): the payload-length field at offset 40
equals the actual number of payload bytes after the 44-byte header; the
byte-rate field equals sampleRate · channels · (bitDepth/8); the
block-alignment field equals channels · (bitDepth/8); and the remaining
multi-byte fields (sample rate, channel count, bit depth) read back
little-endian as the written values. -/
theorem encodePcm_header_invariants (samples : List ℤ) (sampleRate : ℕ)
    (h1 : 2 * samples.length < 4294967296) (h2 : 2 * sampleRate < 4294967296) :
    readU32le (encodePcmContainer samples sampleRate) 40 =
      (encodePcmContainer samples sampleRate).length - 44 ∧
    readU32le (encodePcmContainer samples sampleRate) 28 =
      sampleRate * 1 * (16 / 8) ∧
    readU16le (encodePcmContainer samples sampleRate) 32 = 1 * (16 / 8) ∧
    readU32le (encodePcmContainer samples sampleRate) 24 = sampleRate ∧
    readU16le (encodePcmContainer samples sampleRate) 22 = 1 ∧
    readU16le (encodePcmContainer samples sampleRate) 34 = 16 := by
  refine ⟨?_, ?_, ?_, ?_, ?_, ?_⟩
  · rw [enc_field_dataLen, encodePcmContainer_length]; omega
  · rw [enc_field_byteRate]; omega
  · rw [enc_field_blockAlign]
  · rw [enc_field_sampleRate]; omega
  · exact enc_field_numChannels samples sampleRate
  · exact enc_field_bitDepth samples sampleRate

/-- Witness for C7 on two concrete samples at 44100 Hz. -/
theorem encodePcm_header_invariants_witness :
    (2 * ([3, -4] : List ℤ).length < 4294967296 ∧ 2 * 44100 < 4294967296) ∧
    (readU32le (encodePcmContainer [3, -4] 44100) 40 =
        (encodePcmContainer [3, -4] 44100).length - 44 ∧
      readU32le (encodePcmContainer [3, -4] 44100) 28 = 44100 * 1 * (16 / 8) ∧
      readU16le (encodePcmContainer [3, -4] 44100) 32 = 1 * (16 / 8) ∧
      readU32le (encodePcmContainer [3, -4] 44100) 24 = 44100 ∧
      readU16le (encodePcmContainer [3, -4] 44100) 22 = 1 ∧
      readU16le (encodePcmContainer [3, -4] 44100) 34 = 16) :=
  ⟨⟨by norm_num, by norm_num⟩,
   encodePcm_header_invariants [3, -4] 44100 (by norm_num) (by norm_num)⟩

/-- C8: the capture-format resolution returns the first candidate of the
fixed preference list (`audio/wav` first) that the platform supports, and
falls back to the default `audio/webm` exactly when no candidate is
supported; it is a total function, never an error. -/
theorem selectCaptureFormat_first_supported :
    (∀ s : String → Bool,
      selectCaptureFormat s = (captureCandidates.find? s).getD ("audio/webm")) ∧
    (∀ s : String → Bool, (∀ c ∈ captureCandidates, s c = false) →
      selectCaptureFormat s = "audio/webm") := by
  constructor
  · intro s
    rw [selectCaptureFormat, captureCandidates, List.find?]
    cases h : s ("audio/wav") <;> simp [h]
  · intro s h
    rw [selectCaptureFormat]
    have h1 := h ("audio/wav") (by simp [captureCandidates])
    rw [h1]
    simp only [Bool.false_eq_true, if_false]
    rw [List.find?_eq_none.mpr ?_]
    · rfl
    · intro x hx
      have hc := h x (by simp [captureCandidates]; right; exact hx)
      simp [hc]

/-- Witness for C8: a platform supporting only `audio/mp4` gets
`audio/mp4`; a platform supporting nothing gets the `audio/webm`
default. -/
theorem selectCaptureFormat_first_supported_witness :
    selectCaptureFormat (fun m => m == "audio/mp4") = "audio/mp4" ∧
    ((∀ c ∈ captureCandidates, (fun _ : String => false) c = false) ∧
      selectCaptureFormat (fun _ : String => false) = "audio/webm") :=
  ⟨by rw [selectCaptureFormat_first_supported.1]; rfl,
   ⟨fun c _ => rfl,
    selectCaptureFormat_first_supported.2 (fun _ => false) (fun c _ => rfl)⟩⟩

/-- C9: re-encoding one second of 44100 Hz mono silence yields a container
of exactly 44 + 88200 bytes whose payload bytes are all zero. -/
theorem silence_one_second_wav :
    (audioBufferToWav ⟨44100, [List.replicate 44100 0]⟩).length = 44 + 88200 ∧
    (audioBufferToWav ⟨44100, [List.replicate 44100 0]⟩).drop 44 =
      List.replicate 88200 0 := by
  have hq : (List.replicate 44100 (0 : ℚ)).map quantize =
      List.replicate 44100 (0 : ℤ) := by
    rw [List.map_replicate, quantize_zero]
  constructor
  · rw [audioBufferToWav]
    show (encodePcmContainer
      ((downmixToMono [List.replicate 44100 (0 : ℚ)]).map quantize) 44100).length = _
    rw [downmix_single, hq, encodePcmContainer_length]
    norm_num
  · rw [audioBufferToWav]
    show (encodePcmContainer
      ((downmixToMono [List.replicate 44100 (0 : ℚ)]).map quantize) 44100).drop 44 = _
    rw [downmix_single, hq, encodePcmContainer_drop44, List.map_replicate,
      show i16le 0 = [0, 0] from rfl, flatten_replicate_pair]

/-- C10: with more than two equal-length channels the mixer still produces
a mono output of channel 0's length, each entry the mean of channels 0 and
1 only — further channels are ignored. -/
theorem downmixToMono_many_channels (c0 c1 c2 : List ℚ) (rest : List (List ℚ))
    (h : c1.length = c0.length) :
    (downmixToMono (c0 :: c1 :: c2 :: rest)).length = c0.length ∧
    ∀ i, i < c0.length →
      (downmixToMono (c0 :: c1 :: c2 :: rest)).getD i 0 =
        (c0.getD i 0 + c1.getD i 0) / 2 := by
  refine ⟨by simp [downmixToMono], fun i hi => ?_⟩
  simp [downmixToMono, List.getElem?_range hi]

/-- Witness for C10: three channels `[2]`, `[4]`, `[100]` mix to `[3]` —
the third channel plays no part. -/
theorem downmixToMono_many_channels_witness :
    ([(4 : ℚ)] : List ℚ).length = ([(2 : ℚ)] : List ℚ).length ∧
    ((downmixToMono [[(2 : ℚ)], [(4 : ℚ)], [(100 : ℚ)]]).length = 1 ∧
      (downmixToMono [[(2 : ℚ)], [(4 : ℚ)], [(100 : ℚ)]]).getD 0 0 = 3) := by
  refine ⟨rfl, (downmixToMono_many_channels [2] [4] [100] [] rfl).1, ?_⟩
  rw [(downmixToMono_many_channels [(2 : ℚ)] [4] [100] [] rfl).2 0 (by norm_num)]
  norm_num

end BeyondWords
